import Mathlib

/-!
# Weatherly backend — verification development

Shallow embedding of `src/backend/server.js`: the subscription registration
endpoint, the two-hour delivery scheduler, the per-cycle delivery
coordinator, the notification composer and the repository bookkeeping,
together with proofs about them.

Modelling conventions:
* Instants are whole minutes since an epoch falling on a UTC midnight
  (sub-minute precision is immaterial to every property treated here).
* A timezone is its UTC offset in minutes normalized into `[0, 1440)`;
  only hours-of-day and minutes-of-hour are ever read off a rendered local
  time, so normalizing the offset modulo one day loses nothing.
* The weather provider (`fetchWeatherData`; served by `weatherRoutes.js`,
  which is not part of the sources) is an oracle from a location string to
  an optional response whose shape follows the provider contract:
  hourly entries carry a reference-timezone timestamp and weather fields.
* The delivery channel (`webpush.sendNotification`) is an oracle from an
  endpoint and payload to a result: delivered, permanently invalid
  (HTTP 410/404), or any other (transient) failure.
* `Promise.allSettled` fan-out is embedded as the list of attempted sends
  plus the net repository effect (each rejected 410/404 send deletes its
  own endpoint; the per-key deletions are independent, so the settled
  batch removes exactly the permanently-invalid endpoints).
-/

set_option maxRecDepth 4000

namespace Weatherly

/-- An instant: whole minutes since an epoch on a UTC midnight. -/
abbrev Instant := Nat

/-- A timezone: UTC offset in minutes, normalized into `[0, 1440)`. -/
abbrev Tz := Nat

/-- The hour of `t` rendered in timezone `off`
(`Date#toLocaleString` with a `timeZone` option in the source). -/
def hourIn (off : Tz) (t : Instant) : Nat := (t + off) / 60 % 24

/-- The minute of `t` rendered in timezone `off`. -/
def minuteIn (off : Tz) (t : Instant) : Nat := (t + off) % 60

/-- Source `getLocalHour(timezone)`: the current hour rendered in `timezone`.
The source reads the ambient clock; here the current instant `now` is an
explicit argument.  When the `timezone` argument is omitted at a call site,
`toLocaleString` falls back to the server's own zone; such call sites are
modelled by passing the server offset. -/
def getLocalHour (timezone : Tz) (now : Instant) : Nat := hourIn timezone now

/-- Source `Date#setHours(h, 0, 0, 0)`: move the receiver to hour `h`, minute 0,
second 0 of the same server-local day (an hour value `≥ 24` rolls over into
the following day).  JavaScript's `setHours` interprets its argument in the
runtime's own local timezone, hence the server offset participates here,
not the subscription's. -/
def setHoursZero (serverOff : Tz) (t : Instant) (h : Nat) : Instant :=
  let localMin := t + serverOff
  let dayStart := localMin - localMin % 1440
  dayStart + h * 60 - serverOff

/-- Source `calculateNextNotificationTime(now, timezone)`: round up to the next
even hour.  The local hour is read in `timezone` (or in the server's own
zone when the argument is omitted at the call site), but the result is
written back with `setHours`, i.e. in the server's local day. -/
def calculateNextNotificationTime (serverOff : Tz) (timezone : Tz) (now : Instant) : Instant :=
  let localHour := getLocalHour timezone now
  let nextNotificationHour := localHour + (2 - localHour % 2)
  setHoursZero serverOff now nextNotificationHour

/-- One hourly forecast entry (`forecast.forecastday[0].hour[i]`).
Numeric weather fields are integers here; no verified property depends on
their arithmetic.  `local_hour` is `none` on entries as the provider
returns them (the provider contract exposes a reference-timezone
timestamp and weather fields only; reading the absent property yields
`undefined` in the source, modelled as `none`); the re-projection step of
`sendWeatherUpdateForSubscription` fills it in. -/
structure HourEntry where
  time : Instant
  temp_c : Int
  conditionText : String
  conditionIcon : String
  cloud : Nat
  chance_of_rain : Nat
  wind_kph : Nat
  wind_dir : String
  uv : Nat
  local_hour : Option Nat := none
deriving DecidableEq, Repr

/-- One active alert (`alerts.alert[i]`). -/
structure Alert where
  event : String
  severity : String
  headline : String
  desc : String
  instruction : Option String
  effective : Instant
  expires : Instant
deriving DecidableEq, Repr

/-- A provider response: `location.tz_id`, the first forecast day's hourly
entries, and the active alerts (`alerts?.alert || []`). -/
structure WeatherData where
  tz_id : Tz
  hours : List HourEntry
  alerts : List Alert
deriving DecidableEq, Repr

/-- The `data.type` routing tag of a weather notification. -/
inductive NotifType
  | current_weather
  | forecast
  | weather_alert
deriving DecidableEq, Repr

/-- The `data` bag attached to a weather notification: `time` is set on
`current_weather` and `forecast` payloads, `event`/`severity` on
`weather_alert` payloads. -/
structure NotifData where
  type : NotifType
  location : String
  time : Option String := none
  event : Option String := none
  severity : Option String := none
deriving DecidableEq, Repr

/-- A push-notification payload.  The delivery-failure fallback payloads
carry no `data` bag (`data = none`). -/
structure Payload where
  title : String
  body : String
  icon : String
  data : Option NotifData := none
deriving DecidableEq, Repr

/-- A stored subscription document. -/
structure Subscription where
  endpoint : String
  keys : Option String
  location : String
  createdAt : Instant
  lastNotified : Option Instant
  nextNotificationTime : Instant
deriving DecidableEq, Repr

/-- The subscriptions collection: one document per subscription. -/
abbrev Repo := List Subscription

/-- The endpoints currently stored in the repository. -/
def endpointsOf (repo : Repo) : List String := repo.map (fun s => s.endpoint)

/-- The outcome of one `webpush.sendNotification` call: resolved, rejected
with status 410/404 (endpoint permanently invalid), or rejected for any
other (transient) reason. -/
inductive SendResult
  | delivered
  | permanentlyInvalid
  | transient
deriving DecidableEq, Repr

/-- The delivery channel as an oracle: the result of pushing a given
payload to a given endpoint. -/
abbrev Channel := String → Payload → SendResult

/-- One attempted push: which endpoint, which payload, what came back. -/
structure SendAttempt where
  endpoint : String
  payload : Payload
  result : SendResult
deriving DecidableEq, Repr

/-- Source `location.split(',')[0]`: the display name is the first comma-delimited
segment of the stored location string. -/
def firstSegment (location : String) : String := (location.splitOn ",").headD ""

/-- Source `formatHourOnly`: render only the hour of `t` in timezone `tz`,
12-hour style ("2 PM"); the source formats with
`hour: 'numeric', hour12: true` and strips any minutes. -/
def formatHourOnly (tz : Tz) (t : Instant) : String :=
  let h := hourIn tz t
  let h12 := if h % 12 = 0 then 12 else h % 12
  toString h12 ++ (if h < 12 then " AM" else " PM")

/-- The current-conditions payload built by `sendLocationNotifications`. -/
def currentNotification (location currentTime : String) (d : HourEntry) : Payload :=
  { title := "⏱️ " ++ currentTime ++ " Weather (" ++ firstSegment location ++ ")"
    body := toString d.temp_c ++ "°C, " ++ d.conditionText ++
      "\n☁️ Cloud Cover: " ++ toString d.cloud ++ "%" ++
      "\n☔ Rain chance: " ++ toString d.chance_of_rain ++ "%" ++
      "\n🌬️ Wind: " ++ toString d.wind_kph ++ " kph " ++ d.wind_dir ++
      "\n☀️ UV Index: " ++ toString d.uv
    icon := d.conditionIcon
    data := some { type := .current_weather, location := location, time := some currentTime } }

/-- The next-hour forecast payload built by `sendLocationNotifications`. -/
def forecastNotification (location nextTime : String) (d : HourEntry) : Payload :=
  { title := "🔮 " ++ nextTime ++ " Forecast (" ++ firstSegment location ++ ")"
    body := "Expected: " ++ toString d.temp_c ++ "°C, " ++ d.conditionText ++
      "\n☁️ Cloud Cover: " ++ toString d.cloud ++ "%" ++
      "\n☔ Rain chance: " ++ toString d.chance_of_rain ++ "%" ++
      "\n🌬️ Wind: " ++ toString d.wind_kph ++ " kph " ++ d.wind_dir ++
      "\n☀️ UV Index: " ++ toString d.uv
    icon := d.conditionIcon
    data := some { type := .forecast, location := location, time := some nextTime } }

/-- Source `Date#toLocaleString()` with no arguments renders in the server's own
timezone; the exact locale text is immaterial to every property here —
what matters is that the server-local projection of the instant is used. -/
def toLocaleStringServer (serverOff : Tz) (t : Instant) : String :=
  let localMin := t + serverOff
  toString (localMin / 1440) ++ ", " ++
    toString (localMin % 1440 / 60) ++ ":" ++ toString (localMin % 60)

/-- Source `createAlertNotification(alert, location)`. -/
def createAlertNotification (serverOff : Tz) (alert : Alert) (location : String) : Payload :=
  { title := "⚠️ " ++ alert.event ++ " - " ++ firstSegment location
    body := alert.headline ++ "\n\n" ++
      "Severity: " ++ alert.severity ++ "\n" ++
      "Effective: " ++ toLocaleStringServer serverOff alert.effective ++ "\n" ++
      "Expires: " ++ toLocaleStringServer serverOff alert.expires ++ "\n\n" ++
      alert.desc ++ "\n\n" ++ (alert.instruction.getD "")
    icon := "/icons/alert.png"
    data := some { type := .weather_alert, location := location,
                   event := some alert.event, severity := some alert.severity } }

/-- The fallback payload of `sendWeatherUpdateForSubscription`'s catch
block (one-off delivery triggered by registration). -/
def oneOffFallbackPayload (location : String) : Payload :=
  { title := "Weather Update Failed"
    body := "Couldn't get latest weather for " ++ firstSegment location
    icon := "/icons/error.png" }

/-- The fallback payload of the per-location catch block inside
`sendTwoHourWeatherUpdates`. -/
def cycleFallbackPayload (location : String) : Payload :=
  { title := "Weather Update Failed"
    body := "We couldn't get the latest weather for " ++ firstSegment location
    icon := "/icons/error.png" }

/-- Source `sendNotification(subscription, payload)`: push one payload; a 410/404
rejection deletes the subscription document keyed by the endpoint. -/
def sendNotification (ch : Channel) (repo : Repo) (endpoint : String) (payload : Payload) :
    Repo × List SendAttempt :=
  let res := ch endpoint payload
  ((if res = .permanentlyInvalid then repo.filter (fun s => s.endpoint != endpoint) else repo),
   [⟨endpoint, payload, res⟩])

/-- Source `sendBatchNotifications(subscribers, payload)`: `Promise.allSettled`
over the snapshotted subscriber list; every rejected send with status
410/404 deletes its own subscription document, so the settled batch removes
exactly the permanently-invalid endpoints among the subscribers. -/
def sendBatchNotifications (ch : Channel) (repo : Repo) (subscribers : List Subscription)
    (payload : Payload) : Repo × List SendAttempt :=
  let attempts := subscribers.map
    (fun sub => SendAttempt.mk sub.endpoint payload (ch sub.endpoint payload))
  let dead := (subscribers.filter
    (fun sub => ch sub.endpoint payload == SendResult.permanentlyInvalid)).map
    (fun sub => sub.endpoint)
  (repo.filter (fun s => !(dead.contains s.endpoint)), attempts)

/-- The `for (const alert of alerts)` loop inside
`sendLocationNotifications`: one alert notification per active alert, in
the provider's return order. -/
def sendAlertNotifications (serverOff : Tz) (ch : Channel) (location : String)
    (subscribers : List Subscription) : Repo → List Alert → Repo × List SendAttempt
  | repo, [] => (repo, [])
  | repo, alert :: rest =>
    let step := sendBatchNotifications ch repo subscribers
      (createAlertNotification serverOff alert location)
    let next := sendAlertNotifications serverOff ch location subscribers step.1 rest
    (next.1, step.2 ++ next.2)

/-- Source `sendLocationNotifications(location, currentHourData, nextHourData,
alerts)`.  The callers merge a `timezone` property into the hour records;
here it is the explicit `timezone` argument.  The subscriber list is
fetched once up front and reused for every batch; the bookkeeping update
(`updateMany` on `lastNotified` / `nextNotificationTime`) runs last,
against whatever documents for this location are still stored. -/
def sendLocationNotifications (serverOff : Tz) (ch : Channel) (repo : Repo)
    (location : String) (timezone : Tz)
    (currentHourData nextHourData : HourEntry) (alerts : List Alert)
    (now : Instant) : Repo × List SendAttempt :=
  let currentTime := formatHourOnly timezone currentHourData.time
  let nextTime := formatHourOnly timezone nextHourData.time
  let locationSubscribers := repo.filter (fun s => s.location == location)
  if locationSubscribers.isEmpty then (repo, [])
  else
    let cur := currentNotification location currentTime currentHourData
    let fc := forecastNotification location nextTime nextHourData
    let step1 := sendBatchNotifications ch repo locationSubscribers cur
    let step2 := sendBatchNotifications ch step1.1 locationSubscribers fc
    let step3 := sendAlertNotifications serverOff ch location locationSubscribers step2.1 alerts
    let updated := step3.1.map (fun s =>
      if s.location == location then
        { s with lastNotified := some now,
                 nextNotificationTime := calculateNextNotificationTime serverOff timezone now }
      else s)
    (updated, step1.2 ++ step2.2 ++ step3.2)

/-- Source `sendWeatherUpdateForSubscription(subscription, location)`: the one-off
delivery triggered right after registration.  `provOut` is the outcome of
`fetchWeatherData` (`none` = the request threw).  This path re-projects
every hourly entry's timestamp into the resolved timezone before matching
(the mapping also attaches a display `local_time`, which nothing reads
afterwards and which is omitted here). -/
def sendWeatherUpdateForSubscription (serverOff : Tz) (ch : Channel) (repo : Repo)
    (provOut : Option WeatherData) (endpoint : String) (location : String)
    (now : Instant) : Repo × List SendAttempt :=
  match provOut with
  | none => sendNotification ch repo endpoint (oneOffFallbackPayload location)
  | some weatherData =>
    let timezone := weatherData.tz_id
    let localHour := hourIn timezone now
    let nextHour := (localHour + 1) % 24
    let adjustedHourlyData := weatherData.hours.map (fun h =>
      { h with local_hour := some (hourIn timezone h.time) })
    match adjustedHourlyData.find? (fun h => h.local_hour == some localHour),
          adjustedHourlyData.find? (fun h => h.local_hour == some nextHour) with
    | some currentData, some nextData =>
      sendLocationNotifications serverOff ch repo location timezone
        currentData nextData weatherData.alerts now
    | _, _ => sendNotification ch repo endpoint (oneOffFallbackPayload location)

/-- The first-occurrence order of the `locationsMap` built by
`sendTwoHourWeatherUpdates` (a JavaScript `Map` preserves insertion
order). -/
def locationsOf : List Subscription → List String
  | [] => []
  | s :: rest => s.location :: (locationsOf rest).filter (fun l => l != s.location)

/-- The body of the per-location loop of `sendTwoHourWeatherUpdates`:
fetch, match the current and next local hour directly against the
provider's hourly entries (`h.local_hour === localHour`, with no
re-projection step), and either fan out the two weather notifications —
no alerts are passed — or fan out the fallback payload to the location's
grouped subscribers. -/
def processLocationCycle (serverOff : Tz) (ch : Channel)
    (provider : String → Option WeatherData) (now : Instant) (repo : Repo)
    (location : String) (subscribers : List Subscription) : Repo × List SendAttempt :=
  match provider location with
  | none => sendBatchNotifications ch repo subscribers (cycleFallbackPayload location)
  | some weatherData =>
    let timezone := weatherData.tz_id
    let localHour := hourIn timezone now
    let nextHour := (localHour + 1) % 24
    match weatherData.hours.find? (fun h => h.local_hour == some localHour),
          weatherData.hours.find? (fun h => h.local_hour == some nextHour) with
    | some currentData, some nextData =>
      sendLocationNotifications serverOff ch repo location timezone
        currentData nextData [] now
    | _, _ => sendBatchNotifications ch repo subscribers (cycleFallbackPayload location)

/-- The `for (const [location, subscribers] of locationsMap)` loop:
locations are processed in order, each inside its own failure boundary,
threading the repository state. -/
def processLocations (serverOff : Tz) (ch : Channel)
    (provider : String → Option WeatherData) (now : Instant)
    (allSubs : List Subscription) : Repo → List String → Repo × List SendAttempt
  | repo, [] => (repo, [])
  | repo, location :: rest =>
    let step := processLocationCycle serverOff ch provider now repo location
      (allSubs.filter (fun s => s.location == location))
    let next := processLocations serverOff ch provider now allSubs step.1 rest
    (next.1, step.2 ++ next.2)

/-- Source `sendTwoHourWeatherUpdates()`: one delivery cycle over a snapshot of
all subscriptions, grouped by location. -/
def sendTwoHourWeatherUpdates (serverOff : Tz) (ch : Channel)
    (provider : String → Option WeatherData) (repo : Repo) (now : Instant) :
    Repo × List SendAttempt :=
  if repo.isEmpty then (repo, [])
  else processLocations serverOff ch provider now repo repo (locationsOf repo)

/-- Source `scheduleTwoHourWeatherUpdates()` computes the delay as
`(120 - (currentHour % 2 * 60 + minutes)) % 120`, read off the server's
own local clock (`Date#getHours` / `Date#getMinutes` render local time). -/
def minutesToNextUpdate (serverOff : Tz) (now : Instant) : Nat :=
  (120 - (hourIn serverOff now % 2 * 60 + minuteIn serverOff now)) % 120

/-- The firing instants armed by `scheduleTwoHourWeatherUpdates`: a
one-shot `setTimeout` after `minutesToNextUpdate`, then `setInterval`
every 120 minutes. -/
def scheduledCycleTimes (serverOff : Tz) (startAt : Instant) (k : Nat) : Instant :=
  startAt + minutesToNextUpdate serverOff startAt + 120 * k

/-- The delay the specification describes, following its words: the number
of minutes until the next wall-clock boundary with
`hour % 2 == 0 && minute == 0` in the UTC reference clock (offset 0).
Compare with `minutesToNextUpdate`, which reads the server's local
clock. -/
def specUtcBoundaryDelay (now : Instant) : Nat :=
  (120 - (hourIn 0 now % 2 * 60 + minuteIn 0 now)) % 120

/-- Whitespace as matched by the `\s` class in the location-normalizing
regular expression (the classes relevant to location strings). -/
def isLocWs (c : Char) : Bool := c == ' ' || c == '\t' || c == '\n' || c == '\r'

/-- Source `location.replace(/\s*,\s*/g, ',')` as a left-to-right scan:
`afterComma` records that the previous emitted character was a comma whose
trailing whitespace is still being consumed; `pendingWs` holds a
whitespace run that will be dropped if a comma follows it and emitted
verbatim otherwise.  Whitespace not adjacent to a comma is untouched. -/
def normAux : Bool → List Char → List Char → List Char
  | _, pendingWs, [] => pendingWs.reverse
  | afterComma, pendingWs, c :: rest =>
    if isLocWs c then
      if afterComma then normAux true [] rest
      else normAux false (c :: pendingWs) rest
    else if c == ',' then
      ',' :: normAux true [] rest
    else
      pendingWs.reverse ++ (c :: normAux false [] rest)

/-- Source `location.replace(/\s*,\s*/g, ',')`: remove whitespace around
commas. -/
def normalizeLocation (location : String) : String :=
  String.mk (normAux false [] location.toList)

/-- The `subscription` object of a registration request: the push endpoint
plus the transport credential bundle (`keys`), which is absent on a
malformed request. -/
structure PushSub where
  endpoint : String
  keys : Option String
deriving DecidableEq, Repr

/-- The body of a `POST /api/subscribe` request. -/
structure SubscribeRequest where
  subscription : Option PushSub
  location : String
deriving DecidableEq, Repr

/-- Source `updateOne` keyed by the endpoint with a full field replacement and upsert true: replace every
stored field of the record keyed by the endpoint, or insert the document
when no record has that endpoint. -/
def upsert (repo : Repo) (doc : Subscription) : Repo :=
  if repo.any (fun s => s.endpoint == doc.endpoint) then
    repo.map (fun s => if s.endpoint == doc.endpoint then doc else s)
  else repo ++ [doc]

/-- The observable outcome of a `POST /api/subscribe` request: the
repository afterwards, the HTTP status, and the sends attempted by the
immediately triggered one-off delivery. -/
structure SubscribeResponse where
  repo : Repo
  status : Nat
  attempts : List SendAttempt
deriving Repr

/-- Source `POST /api/subscribe`: validate, upsert, then immediately trigger a
one-off delivery for this subscription and answer 201.
`calculateNextNotificationTime(now)` is called without a timezone
argument here, so the local hour is read from the server's own zone
(modelled by passing `serverOff` for the timezone). -/
def handleSubscribe (serverOff : Tz) (ch : Channel) (provOut : Option WeatherData)
    (repo : Repo) (req : SubscribeRequest) (now : Instant) : SubscribeResponse :=
  match req.subscription with
  | none => ⟨repo, 400, []⟩
  | some sub =>
    if sub.endpoint == "" || sub.keys.isNone then ⟨repo, 400, []⟩
    else
      let normalizedLocation := normalizeLocation req.location
      let subDoc : Subscription :=
        { endpoint := sub.endpoint
          keys := sub.keys
          location := normalizedLocation
          createdAt := now
          lastNotified := none
          nextNotificationTime := calculateNextNotificationTime serverOff serverOff now }
      let repo1 := upsert repo subDoc
      let step := sendWeatherUpdateForSubscription serverOff ch repo1 provOut
        sub.endpoint normalizedLocation now
      ⟨step.1, 201, step.2⟩

/-- A fallback-failure attempt: its payload has no `data` bag and the
failure title. -/
def isFallbackAttempt (a : SendAttempt) : Bool :=
  a.payload.data == none && a.payload.title == "Weather Update Failed"

/-- Every attempted payload is a fallback-failure payload. -/
def allFallback (attempts : List SendAttempt) : Bool := attempts.all isFallbackAttempt

/-- An attempt carrying a `weather_alert` payload. -/
def isAlertAttempt (a : SendAttempt) : Bool :=
  match a.payload.data with
  | some d => d.type == NotifType.weather_alert
  | none => false

/-- How many of the attempted sends carry a `weather_alert` payload. -/
def alertAttemptCount (attempts : List SendAttempt) : Nat :=
  (attempts.filter isAlertAttempt).length

/-- A `weather_alert` payload. -/
def isAlertPayload (p : Payload) : Bool :=
  match p.data with
  | some d => d.type == NotifType.weather_alert
  | none => false

/-! ### Concrete fixtures used by witnesses and counterexamples -/

/-- A channel on which every send resolves. -/
def chDelivered : Channel := fun _ _ => SendResult.delivered

/-- A channel on which every send is rejected with status 410. -/
def chPerm : Channel := fun _ _ => SendResult.permanentlyInvalid

/-- A channel on which every send fails transiently. -/
def chTransient : Channel := fun _ _ => SendResult.transient

/-- A provider hourly entry timestamped at hour `h` (reference timezone)
of epoch day 1. -/
def hourAt (h : Nat) : HourEntry :=
  { time := 1440 + h * 60, temp_c := 20, conditionText := "Clear", conditionIcon := "i",
    cloud := 10, chance_of_rain := 0, wind_kph := 5, wind_dir := "N", uv := 1 }

/-- A stored subscription at endpoint `E` for location `L`. -/
def subL : Subscription :=
  { endpoint := "E", keys := some "K", location := "L", createdAt := 0,
    lastNotified := none, nextNotificationTime := 0 }

/-- An older registration of endpoint `E` (created at minute 100). -/
def subOld : Subscription :=
  { endpoint := "E", keys := some "K", location := "L", createdAt := 100,
    lastNotified := none, nextNotificationTime := 0 }

/-- A well-formed push subscription object for endpoint `E`. -/
def subK : PushSub := ⟨"E", some "K"⟩

/-- A well-formed registration request for endpoint `E`, location `L`. -/
def reqK : SubscribeRequest := ⟨some subK, "L"⟩

/-- Twenty-four provider hourly entries, one per hour of epoch day 1,
shaped as the provider contract specifies (no local-hour property). -/
def rawHours : List HourEntry := (List.range 24).map (fun h => hourAt h)

/-- A full-coverage provider response in the UTC zone with no alerts. -/
def wdRaw : WeatherData := { tz_id := 0, hours := rawHours, alerts := [] }

/-- A provider answering `wdRaw` for every location. -/
def provRaw : String → Option WeatherData := fun _ => some wdRaw

/-- A provider response with no hourly entries at all (a data gap). -/
def wdGap : WeatherData := { tz_id := 0, hours := [], alerts := [] }

/-- A provider answering `wdGap` for every location. -/
def provGap : String → Option WeatherData := fun _ => some wdGap

/-- A sample active alert. -/
def alertA : Alert :=
  { event := "Storm", severity := "Severe", headline := "Storm coming",
    desc := "A storm", instruction := some "Stay in", effective := 2000, expires := 3000 }

/-! ### General lemmas about the scheduler arithmetic -/

theorem minutesToNextUpdate_eq (serverOff : Tz) (t : Instant) :
    minutesToNextUpdate serverOff t = (120 - (t + serverOff) % 120) % 120 := by
  unfold minutesToNextUpdate hourIn minuteIn
  omega

theorem scheduledCycleTimes_zero (serverOff : Tz) (t : Instant) :
    scheduledCycleTimes serverOff t 0 = t + minutesToNextUpdate serverOff t := by
  unfold scheduledCycleTimes; ring

/-! ### Claim C2 -/

/-- C2: the claim that `nextNotificationTime` always renders at an even
local hour in the subscription's timezone fails.  Counterexample: server in
UTC (offset 0), subscription in a UTC+1 zone (offset 60), a successful
delivery at minute 2160 (12:00 UTC = 13:00 local).  The code computes the
local hour 13, targets hour 14, but writes hour 14 back in the *server's*
day via `setHours`, storing 14:00 UTC = 15:00 local — an odd local hour
(minute 0, so it is a top-of-hour instant, with the wrong parity). -/
theorem c2_nextNotificationTime_odd_local_hour :
    ((sendLocationNotifications 0 chDelivered [subL] "L" 60 (hourAt 13) (hourAt 14) [] 2160).1.map
      (fun s => (hourIn 60 s.nextNotificationTime % 2, minuteIn 60 s.nextNotificationTime)))
      = [(1, 0)] := by
  decide

/-! ### Claim C5 -/

/-- C5: the claim says the startup delay counts to the next even-hour
boundary of the UTC reference clock; the code reads `Date#getHours` /
`getMinutes`, which render the *server-local* clock.  Counterexample: a
server at UTC+1 at minute 780 (13:00 UTC, 14:00 server-local): the code
computes delay 0, a UTC-boundary delay would be 60. -/
theorem c5_scheduler_delay_not_utc :
    minutesToNextUpdate 60 780 ≠ specUtcBoundaryDelay 780 ∧
    minutesToNextUpdate 60 780 = 0 ∧ specUtcBoundaryDelay 780 = 60 := by
  decide

/-- C5 (amended): on start the scheduler computes the delay in minutes
until the next wall-clock boundary where `hour % 2 == 0 && minute == 0`
in the *server's local* clock, arms a one-shot timer for that delay, and
subsequent cycles repeat at a fixed period of exactly two hours: the first
firing instant is such a boundary, no earlier instant is, and consecutive
firing instants are 120 minutes apart. -/
theorem c5_amended_scheduler_local_clock (serverOff : Tz) (t : Instant) :
    (hourIn serverOff (scheduledCycleTimes serverOff t 0) % 2 = 0 ∧
      minuteIn serverOff (scheduledCycleTimes serverOff t 0) = 0) ∧
    (∀ d : Nat, d < minutesToNextUpdate serverOff t →
      ¬(hourIn serverOff (t + d) % 2 = 0 ∧ minuteIn serverOff (t + d) = 0)) ∧
    (∀ k : Nat, scheduledCycleTimes serverOff t (k + 1)
      = scheduledCycleTimes serverOff t k + 120) := by
  have h := minutesToNextUpdate_eq serverOff t
  refine ⟨?_, ?_, ?_⟩
  · rw [scheduledCycleTimes_zero]
    unfold hourIn minuteIn
    omega
  · intro d hd
    unfold hourIn minuteIn
    omega
  · intro k
    unfold scheduledCycleTimes
    ring

/-! ### Claim C10 -/

/-- C10: a registration request with well-formed credentials is answered
201 regardless of the outcome of the immediately triggered one-off
delivery: the response status does not depend on the provider outcome
`provOut` or the channel `ch` (any failure there is absorbed into a
fallback notification inside `sendWeatherUpdateForSubscription`). -/
theorem c10_subscribe_status_201 (serverOff : Tz) (ch : Channel)
    (provOut : Option WeatherData) (repo : Repo) (req : SubscribeRequest)
    (now : Instant) (sub : PushSub)
    (hsub : req.subscription = some sub) (hend : sub.endpoint ≠ "")
    (hkeys : sub.keys.isSome = true) :
    (handleSubscribe serverOff ch provOut repo req now).status = 201 := by
  have h1 : (sub.endpoint == "") = false := by
    simpa using hend
  have h2 : sub.keys.isNone = false := by
    cases h : sub.keys
    · rw [h] at hkeys; simp at hkeys
    · simp [h]
  unfold handleSubscribe
  rw [hsub]
  simp [h1, h2]

/-- Witness for C10 at a concrete input: a valid request, provider down
(`provOut = none`) and transiently failing channel still yield 201. -/
theorem c10_witness :
    reqK.subscription = some subK ∧ subK.endpoint ≠ "" ∧ subK.keys.isSome = true ∧
    (handleSubscribe 0 chTransient none [] reqK 2000).status = 201 :=
  ⟨rfl, by decide, by decide,
    c10_subscribe_status_201 0 chTransient none [] reqK 2000 subK rfl (by decide) (by decide)⟩

/-! ### Counting lemmas for attempted sends -/

theorem alertAttemptCount_append (a b : List SendAttempt) :
    alertAttemptCount (a ++ b) = alertAttemptCount a + alertAttemptCount b := by
  unfold alertAttemptCount
  rw [List.filter_append, List.length_append]

theorem isAlertAttempt_mk (e : String) (p : Payload) (r : SendResult) :
    isAlertAttempt ⟨e, p, r⟩ = isAlertPayload p := rfl

theorem alertAttemptCount_batch (ch : Channel) (repo : Repo)
    (subs : List Subscription) (payload : Payload)
    (h : isAlertPayload payload = false) :
    alertAttemptCount (sendBatchNotifications ch repo subs payload).2 = 0 := by
  unfold sendBatchNotifications alertAttemptCount
  simp [isAlertAttempt_mk, h]

theorem allFallback_append (a b : List SendAttempt) :
    allFallback (a ++ b) = (allFallback a && allFallback b) := by
  unfold allFallback
  exact List.all_append

theorem allFallback_batch_cycleFallback (ch : Channel) (repo : Repo)
    (subs : List Subscription) (location : String) :
    allFallback (sendBatchNotifications ch repo subs (cycleFallbackPayload location)).2 = true := by
  unfold sendBatchNotifications allFallback
  rw [List.all_eq_true]
  intro a ha
  rcases List.mem_map.mp ha with ⟨s, _, rfl⟩
  rfl

/-! ### Claim C6 -/

theorem isAlertPayload_currentNotification (location currentTime : String) (d : HourEntry) :
    isAlertPayload (currentNotification location currentTime d) = false := rfl

theorem isAlertPayload_forecastNotification (location nextTime : String) (d : HourEntry) :
    isAlertPayload (forecastNotification location nextTime d) = false := rfl

theorem alertAttemptCount_sendLoc_no_alerts (serverOff : Tz) (ch : Channel)
    (repo : Repo) (location : String) (tz : Tz) (cur nxt : HourEntry) (now : Instant) :
    alertAttemptCount (sendLocationNotifications serverOff ch repo location tz cur nxt [] now).2
      = 0 := by
  unfold sendLocationNotifications
  dsimp only
  split
  · rfl
  · rw [alertAttemptCount_append, alertAttemptCount_append]
    rw [alertAttemptCount_batch _ _ _ _ (isAlertPayload_currentNotification _ _ _),
      alertAttemptCount_batch _ _ _ _ (isAlertPayload_forecastNotification _ _ _)]
    rfl

theorem alertAttemptCount_processLocationCycle (serverOff : Tz) (ch : Channel)
    (provider : String → Option WeatherData) (now : Instant) (repo : Repo)
    (location : String) (subs : List Subscription) :
    alertAttemptCount
      (processLocationCycle serverOff ch provider now repo location subs).2 = 0 := by
  unfold processLocationCycle
  cases provider location with
  | none => exact alertAttemptCount_batch _ _ _ _ rfl
  | some wd =>
    simp only
    split
    · exact alertAttemptCount_sendLoc_no_alerts _ _ _ _ _ _ _ _
    · exact alertAttemptCount_batch _ _ _ _ rfl

theorem alertAttemptCount_processLocations (serverOff : Tz) (ch : Channel)
    (provider : String → Option WeatherData) (now : Instant)
    (allSubs : List Subscription) :
    ∀ (ls : List String) (repo : Repo),
      alertAttemptCount
        (processLocations serverOff ch provider now allSubs repo ls).2 = 0 := by
  intro ls
  induction ls with
  | nil => intro repo; rfl
  | cons l rest ih =>
    intro repo
    unfold processLocations
    rw [alertAttemptCount_append, alertAttemptCount_processLocationCycle, ih]

/-- C6: the claim that a delivery cycle produces one `weather_alert`
payload per active alert fails in the strongest way — a scheduled cycle
never produces a `weather_alert` payload at all, whatever the provider
returns: `sendTwoHourWeatherUpdates` calls `sendLocationNotifications`
without passing the alerts, so the alert loop always runs over the empty
default. -/
theorem c6_cycle_sends_no_alert_payloads (serverOff : Tz) (ch : Channel)
    (provider : String → Option WeatherData) (repo : Repo) (now : Instant) :
    alertAttemptCount (sendTwoHourWeatherUpdates serverOff ch provider repo now).2 = 0 := by
  unfold sendTwoHourWeatherUpdates
  split
  · rfl
  · exact alertAttemptCount_processLocations _ _ _ _ _ _ _

/-! ### Claim C1 -/

theorem find?_local_hour_none {hours : List HourEntry}
    (hraw : ∀ e ∈ hours, e.local_hour = none) (lh : Nat) :
    hours.find? (fun h => h.local_hour == some lh) = none := by
  rw [List.find?_eq_none]
  intro x hx
  rw [hraw x hx]
  simp

theorem allFallback_processLocations_raw (serverOff : Tz) (ch : Channel)
    (provider : String → Option WeatherData) (now : Instant)
    (allSubs : List Subscription)
    (hraw : ∀ loc wd, provider loc = some wd → ∀ e ∈ wd.hours, e.local_hour = none) :
    ∀ (ls : List String) (repo : Repo),
      allFallback (processLocations serverOff ch provider now allSubs repo ls).2 = true := by
  intro ls
  induction ls with
  | nil => intro repo; rfl
  | cons l rest ih =>
    intro repo
    unfold processLocations
    rw [allFallback_append, Bool.and_eq_true]
    refine ⟨?_, ih _⟩
    unfold processLocationCycle
    cases hp : provider l with
    | none => exact allFallback_batch_cycleFallback _ _ _ _
    | some wd =>
      simp only
      rw [find?_local_hour_none (hraw l wd hp)]
      exact allFallback_batch_cycleFallback _ _ _ _

/-- C1: the claim that every delivery cycle re-projects the provider's
hourly timestamps into the subscription's timezone and composes current
and forecast notifications from the matching entries fails: the scheduled
cycle (`sendTwoHourWeatherUpdates`) matches `h.local_hour === localHour`
directly on the raw provider entries without any re-projection step.
Since the provider contract exposes no local-hour property on hourly
entries, the lookup never succeeds, and every attempt a cycle makes is
the fallback-failure payload — no current-conditions or forecast
notification is ever composed.  (The one-off delivery after registration
does perform the re-projection, which shows the intended behaviour.) -/
theorem c1_cycle_raw_entries_only_fallbacks (serverOff : Tz) (ch : Channel)
    (provider : String → Option WeatherData) (repo : Repo) (now : Instant)
    (hraw : ∀ loc wd, provider loc = some wd → ∀ e ∈ wd.hours, e.local_hour = none) :
    allFallback (sendTwoHourWeatherUpdates serverOff ch provider repo now).2 = true := by
  unfold sendTwoHourWeatherUpdates
  split
  · rfl
  · exact allFallback_processLocations_raw _ _ _ _ _ hraw _ _

/-- Witness for C1 at a concrete input: a provider giving full 24-hour
coverage (by timestamp) in the subscriber's own zone still yields only
fallback attempts from the cycle. -/
theorem c1_witness :
    wdRaw.hours.all (fun e => e.local_hour == none) = true ∧
    allFallback (sendTwoHourWeatherUpdates 0 chDelivered provRaw [subL] 2160).2 = true :=
  ⟨by decide,
    c1_cycle_raw_entries_only_fallbacks 0 chDelivered provRaw [subL] 2160
      (by
        intro loc wd h e he
        cases h
        rcases List.mem_map.mp he with ⟨n, _, rfl⟩
        rfl)⟩

/-! ### Endpoint-keyed lookup lemmas -/

theorem contains_eq_true_iff (l : List String) (a : String) :
    l.contains a = true ↔ a ∈ l := by
  simp [List.contains]

theorem eq_of_mem_of_endpoint_eq {R : Repo} {s : Subscription}
    (hmem : s ∈ R) (hnodup : (endpointsOf R).Nodup) :
    ∀ x ∈ R, x.endpoint = s.endpoint → x = s := by
  induction R with
  | nil => simp at hmem
  | cons h t ih =>
    rw [endpointsOf, List.map_cons, List.nodup_cons] at hnodup
    rcases hnodup with ⟨hhead, htail⟩
    intro x hx hxe
    rcases List.mem_cons.mp hmem with rfl | hst
    · rcases List.mem_cons.mp hx with rfl | hxt
      · rfl
      · exact absurd (hxe ▸ List.mem_map_of_mem (fun y => y.endpoint) hxt) hhead
    · rcases List.mem_cons.mp hx with rfl | hxt
      · exact absurd (hxe.symm ▸ List.mem_map_of_mem (fun y => y.endpoint) hst) hhead
      · exact ih hst htail x hxt hxe

theorem filter_eq_singleton_of_key {R : Repo} {s : Subscription} (p : Subscription → Bool)
    (hmem : s ∈ R) (hnodup : (endpointsOf R).Nodup) (hp : p s = true)
    (hkey : ∀ x, p x = true → x.endpoint = s.endpoint) :
    R.filter p = [s] := by
  induction R with
  | nil => simp at hmem
  | cons h t ih =>
    rw [endpointsOf, List.map_cons, List.nodup_cons] at hnodup
    rcases hnodup with ⟨hhead, htail⟩
    rcases List.mem_cons.mp hmem with rfl | hst
    · rw [List.filter_cons_of_pos hp]
      have ht : t.filter p = [] := by
        rw [List.filter_eq_nil_iff]
        intro x hx hpx
        exact hhead ((hkey x hpx) ▸ List.mem_map_of_mem (fun y => y.endpoint) hx)
      rw [ht]
    · have hph : p h = false := by
        cases hph : p h
        · rfl
        · exact absurd ((hkey h hph) ▸ List.mem_map_of_mem (fun y => y.endpoint) hst) hhead
      rw [List.filter_cons_of_neg (by simp [hph])]
      exact ih hst htail

/-- The repository still holds the exact document `s`, and no other stored
document claims its endpoint. -/
def keyInv (s : Subscription) (R : Repo) : Prop :=
  s ∈ R ∧ ∀ x ∈ R, x.endpoint = s.endpoint → x = s

theorem keyInv_of_nodup {R : Repo} {s : Subscription}
    (hmem : s ∈ R) (hnodup : (endpointsOf R).Nodup) : keyInv s R :=
  ⟨hmem, eq_of_mem_of_endpoint_eq hmem hnodup⟩

theorem find?_eq_some_of_keyInv {R : Repo} {s : Subscription} (h : keyInv s R) :
    R.find? (fun x => x.endpoint == s.endpoint) = some s := by
  rcases h with ⟨hmem, huniq⟩
  induction R with
  | nil => simp at hmem
  | cons a t ih =>
    by_cases hpa : a.endpoint = s.endpoint
    · have ha : a = s := huniq a (List.mem_cons_self a t) hpa
      subst ha
      simp
    · rw [List.find?_cons_of_neg]
      · have hst : s ∈ t := by
          rcases List.mem_cons.mp hmem with rfl | hst
          · exact absurd rfl hpa
          · exact hst
        exact ih hst (fun x hx hxe => huniq x (List.mem_cons_of_mem _ hx) hxe)
      · simp [hpa]

/-! ### How one batch affects the repository and the per-endpoint attempts -/

theorem batch_attempts (ch : Channel) (repo : Repo) (subs : List Subscription)
    (payload : Payload) :
    (sendBatchNotifications ch repo subs payload).2 =
      subs.map (fun sub => SendAttempt.mk sub.endpoint payload (ch sub.endpoint payload)) := rfl

theorem batch_repo_eq (ch : Channel) (repo : Repo) (subs : List Subscription)
    (payload : Payload) :
    (sendBatchNotifications ch repo subs payload).1 =
      repo.filter (fun x =>
        !(((subs.filter (fun sub => ch sub.endpoint payload == SendResult.permanentlyInvalid)).map
            (fun sub => sub.endpoint)).contains x.endpoint)) := rfl

theorem endpoint_mem_dead {subs : List Subscription} {q : Subscription → Bool} {e : String}
    (h : e ∈ (subs.filter q).map (fun sub => sub.endpoint)) :
    ∃ sub ∈ subs, q sub = true ∧ sub.endpoint = e := by
  rcases List.mem_map.mp h with ⟨sub, hsub, rfl⟩
  rcases List.mem_filter.mp hsub with ⟨h1, h2⟩
  exact ⟨sub, h1, h2, rfl⟩

theorem batch_repo_subset {ch : Channel} {repo : Repo} {subs : List Subscription}
    {payload : Payload} :
    ∀ x ∈ (sendBatchNotifications ch repo subs payload).1, x ∈ repo := by
  intro x hx
  rw [batch_repo_eq] at hx
  exact (List.mem_filter.mp hx).1

theorem batch_keeps_mem {ch : Channel} {repo : Repo} {subs : List Subscription}
    {payload : Payload} {s : Subscription} (hmem : s ∈ repo)
    (hsafe : ∀ sub ∈ subs, sub.endpoint = s.endpoint →
      ch sub.endpoint payload ≠ SendResult.permanentlyInvalid) :
    s ∈ (sendBatchNotifications ch repo subs payload).1 := by
  rw [batch_repo_eq, List.mem_filter]
  refine ⟨hmem, ?_⟩
  cases hc : ((subs.filter
      (fun sub => ch sub.endpoint payload == SendResult.permanentlyInvalid)).map
      (fun sub => sub.endpoint)).contains s.endpoint
  · rfl
  · exfalso
    rcases endpoint_mem_dead ((contains_eq_true_iff _ _).mp hc) with ⟨sub, h1, h2, h3⟩
    exact hsafe sub h1 h3 (beq_iff_eq.mp h2)

theorem batch_keyInv_other {ch : Channel} {repo : Repo} {subs : List Subscription}
    {payload : Payload} {s : Subscription}
    (hinv : keyInv s repo) (he : s.endpoint ∉ subs.map (fun x => x.endpoint)) :
    keyInv s (sendBatchNotifications ch repo subs payload).1 ∧
    (sendBatchNotifications ch repo subs payload).2.filter
      (fun a => a.endpoint == s.endpoint) = [] := by
  rcases hinv with ⟨hmem, huniq⟩
  refine ⟨⟨?_, ?_⟩, ?_⟩
  · exact batch_keeps_mem hmem (fun sub hsub hse _ =>
      he (hse ▸ List.mem_map_of_mem (fun x => x.endpoint) hsub))
  · intro x hx hxe
    exact huniq x (batch_repo_subset x hx) hxe
  · rw [batch_attempts, List.filter_eq_nil_iff]
    intro a ha
    rcases List.mem_map.mp ha with ⟨sub, hsub, rfl⟩
    intro hbeq
    exact he ((beq_iff_eq.mp hbeq) ▸ List.mem_map_of_mem (fun x => x.endpoint) hsub)

theorem batch_keyInv_self {ch : Channel} {repo : Repo} {subs : List Subscription}
    {payload : Payload} {s : Subscription}
    (hinv : keyInv s repo)
    (hsubs : subs.filter (fun x => x.endpoint == s.endpoint) = [s])
    (hres : ch s.endpoint payload ≠ SendResult.permanentlyInvalid) :
    keyInv s (sendBatchNotifications ch repo subs payload).1 ∧
    (sendBatchNotifications ch repo subs payload).2.filter
      (fun a => a.endpoint == s.endpoint)
      = [⟨s.endpoint, payload, ch s.endpoint payload⟩] := by
  rcases hinv with ⟨hmem, huniq⟩
  have hsafe : ∀ sub ∈ subs, sub.endpoint = s.endpoint →
      ch sub.endpoint payload ≠ SendResult.permanentlyInvalid := by
    intro sub hsub hse
    have : sub ∈ subs.filter (fun x => x.endpoint == s.endpoint) :=
      List.mem_filter.mpr ⟨hsub, by simp [hse]⟩
    rw [hsubs] at this
    rcases List.mem_singleton.mp this with rfl
    exact hres
  refine ⟨⟨batch_keeps_mem hmem hsafe, ?_⟩, ?_⟩
  · intro x hx hxe
    exact huniq x (batch_repo_subset x hx) hxe
  · rw [batch_attempts, List.filter_map]
    have : (subs.filter ((fun a => a.endpoint == s.endpoint) ∘
        (fun sub => SendAttempt.mk sub.endpoint payload (ch sub.endpoint payload))))
        = subs.filter (fun x => x.endpoint == s.endpoint) := rfl
    rw [this, hsubs]
    rfl

/-- The per-endpoint attempts of a batch, projected to their payloads. -/
theorem batch_attempts_filter_map {ch : Channel} {repo : Repo} {subs : List Subscription}
    {payload : Payload} {s : Subscription}
    (hsubs : subs.filter (fun x => x.endpoint == s.endpoint) = [s]) :
    ((sendBatchNotifications ch repo subs payload).2.filter
      (fun a => a.endpoint == s.endpoint)).map (fun a => a.payload) = [payload] := by
  rw [batch_attempts, List.filter_map]
  have : (subs.filter ((fun a => a.endpoint == s.endpoint) ∘
      (fun sub => SendAttempt.mk sub.endpoint payload (ch sub.endpoint payload))))
      = subs.filter (fun x => x.endpoint == s.endpoint) := rfl
  rw [this, hsubs]
  rfl

theorem batch_deletes_perm {ch : Channel} {repo : Repo} {subs : List Subscription}
    {payload : Payload} {s : Subscription}
    (hsub : s ∈ subs) (hperm : ch s.endpoint payload = SendResult.permanentlyInvalid) :
    s.endpoint ∉ endpointsOf (sendBatchNotifications ch repo subs payload).1 := by
  intro he
  rcases List.mem_map.mp he with ⟨x, hx, hxe⟩
  rw [batch_repo_eq, List.mem_filter] at hx
  rcases hx with ⟨_, hkeep⟩
  rw [Bool.not_eq_true', ← Bool.not_eq_true] at hkeep
  apply hkeep
  rw [contains_eq_true_iff, hxe]
  refine List.mem_map_of_mem (fun sub => sub.endpoint) (List.mem_filter.mpr ⟨hsub, ?_⟩)
  simp [hperm]

theorem batch_no_new_endpoints {ch : Channel} {repo : Repo} {subs : List Subscription}
    {payload : Payload} {e : String} (he : e ∉ endpointsOf repo) :
    e ∉ endpointsOf (sendBatchNotifications ch repo subs payload).1 := by
  intro hmem
  rcases List.mem_map.mp hmem with ⟨x, hx, hxe⟩
  exact he (hxe ▸ List.mem_map_of_mem (fun y => y.endpoint) (batch_repo_subset x hx))

/-! ### The alert loop -/

theorem alertLoop_repo_subset {serverOff : Tz} {ch : Channel} {location : String}
    {subs : List Subscription} :
    ∀ (alerts : List Alert) (repo : Repo),
      ∀ x ∈ (sendAlertNotifications serverOff ch location subs repo alerts).1, x ∈ repo := by
  intro alerts
  induction alerts with
  | nil => intro repo x hx; exact hx
  | cons al rest ih =>
    intro repo x hx
    unfold sendAlertNotifications at hx
    exact batch_repo_subset x (ih _ x hx)

theorem alertLoop_attempts_self {serverOff : Tz} {ch : Channel} {location : String}
    {subs : List Subscription} {s : Subscription}
    (hsubs : subs.filter (fun x => x.endpoint == s.endpoint) = [s]) :
    ∀ (alerts : List Alert) (repo : Repo),
      ((sendAlertNotifications serverOff ch location subs repo alerts).2.filter
        (fun a => a.endpoint == s.endpoint)).map (fun a => a.payload)
        = alerts.map (fun al => createAlertNotification serverOff al location) := by
  intro alerts
  induction alerts with
  | nil => intro repo; rfl
  | cons al rest ih =>
    intro repo
    unfold sendAlertNotifications
    rw [List.filter_append, List.map_append, batch_attempts_filter_map hsubs, ih]
    rfl

theorem alertLoop_keeps_mem {serverOff : Tz} {ch : Channel} {location : String}
    {subs : List Subscription} {s : Subscription}
    (hsafe : ∀ sub ∈ subs, sub.endpoint = s.endpoint →
      ∀ p : Payload, ch sub.endpoint p ≠ SendResult.permanentlyInvalid) :
    ∀ (alerts : List Alert) (repo : Repo), s ∈ repo →
      s ∈ (sendAlertNotifications serverOff ch location subs repo alerts).1 := by
  intro alerts
  induction alerts with
  | nil => intro repo hmem; exact hmem
  | cons al rest ih =>
    intro repo hmem
    unfold sendAlertNotifications
    exact ih _ (batch_keeps_mem hmem (fun sub hsub hse => hsafe sub hsub hse _))

theorem alertLoop_no_new_endpoints {serverOff : Tz} {ch : Channel} {location : String}
    {subs : List Subscription} {e : String} :
    ∀ (alerts : List Alert) (repo : Repo), e ∉ endpointsOf repo →
      e ∉ endpointsOf (sendAlertNotifications serverOff ch location subs repo alerts).1 := by
  intro alerts
  induction alerts with
  | nil => intro repo he; exact he
  | cons al rest ih =>
    intro repo he
    unfold sendAlertNotifications
    exact ih _ (batch_no_new_endpoints he)

theorem alertLoop_keyInv_other {serverOff : Tz} {ch : Channel} {location : String}
    {subs : List Subscription} {s : Subscription}
    (he : s.endpoint ∉ subs.map (fun x => x.endpoint)) :
    ∀ (alerts : List Alert) (repo : Repo), keyInv s repo →
      keyInv s (sendAlertNotifications serverOff ch location subs repo alerts).1 ∧
      (sendAlertNotifications serverOff ch location subs repo alerts).2.filter
        (fun a => a.endpoint == s.endpoint) = [] := by
  intro alerts
  induction alerts with
  | nil => intro repo hinv; exact ⟨hinv, rfl⟩
  | cons al rest ih =>
    intro repo hinv
    unfold sendAlertNotifications
    have hb : keyInv s (sendBatchNotifications ch repo subs
          (createAlertNotification serverOff al location)).1 ∧
        (sendBatchNotifications ch repo subs
          (createAlertNotification serverOff al location)).2.filter
          (fun a => a.endpoint == s.endpoint) = [] :=
      batch_keyInv_other hinv he
    rcases hb with ⟨hinv1, hatt1⟩
    rcases ih _ hinv1 with ⟨hinv2, hatt2⟩
    exact ⟨hinv2, by rw [List.filter_append, hatt1, hatt2]; rfl⟩

/-! ### `sendLocationNotifications` and a single subscriber at its own location -/

/-- The snapshotted subscriber list of a location contains exactly the
unique document of an endpoint registered there. -/
theorem locationSubscribers_filter_self {repo : Repo} {s : Subscription} {location : String}
    (hmem : s ∈ repo) (hnodup : (endpointsOf repo).Nodup) (hloc : s.location = location) :
    (repo.filter (fun x => x.location == location)).filter
      (fun x => x.endpoint == s.endpoint) = [s] := by
  rw [List.filter_filter]
  apply filter_eq_singleton_of_key _ hmem hnodup
  · simp [hloc]
  · intro x hx
    rw [Bool.and_eq_true] at hx
    exact beq_iff_eq.mp hx.1

theorem locationSubscribers_nonempty {repo : Repo} {s : Subscription} {location : String}
    (hmem : s ∈ repo) (hloc : s.location = location) :
    (repo.filter (fun x => x.location == location)).isEmpty = false := by
  have hs : s ∈ repo.filter (fun x => x.location == location) :=
    List.mem_filter.mpr ⟨hmem, by simp [hloc]⟩
  cases h : (repo.filter (fun x => x.location == location)).isEmpty
  · rfl
  · rw [List.isEmpty_iff] at h
    rw [h] at hs
    simp at hs

/-- The `updateMany` projection keeps every document's endpoint. -/
theorem update_endpoint (location : String) (serverOff tz : Tz) (now : Instant)
    (x : Subscription) :
    ((fun s => if s.location == location then
        { s with lastNotified := some now,
                 nextNotificationTime := calculateNextNotificationTime serverOff tz now }
      else s) x).endpoint = x.endpoint := by
  by_cases h : (x.location == location) = true <;> simp [h]

theorem endpointsOf_map_update (l : Repo) (location : String) (serverOff tz : Tz)
    (now : Instant) :
    endpointsOf (l.map (fun s => if s.location == location then
        { s with lastNotified := some now,
                 nextNotificationTime := calculateNextNotificationTime serverOff tz now }
      else s)) = endpointsOf l := by
  unfold endpointsOf
  rw [List.map_map]
  exact List.map_congr_left (fun x _ => update_endpoint location serverOff tz now x)

/-- All sends a delivery pass attempts against the unique subscriber of an
endpoint at its own location, in order: current conditions, next-hour
forecast, then one alert per active alert in provider order. -/
theorem sendLoc_attempts_self {serverOff : Tz} {ch : Channel} {repo : Repo}
    {location : String} {tz : Tz} {cur nxt : HourEntry} {alerts : List Alert}
    {now : Instant} {s : Subscription}
    (hmem : s ∈ repo) (hnodup : (endpointsOf repo).Nodup) (hloc : s.location = location) :
    ((sendLocationNotifications serverOff ch repo location tz cur nxt alerts now).2.filter
      (fun a => a.endpoint == s.endpoint)).map (fun a => a.payload)
      = currentNotification location (formatHourOnly tz cur.time) cur ::
        forecastNotification location (formatHourOnly tz nxt.time) nxt ::
        alerts.map (fun al => createAlertNotification serverOff al location) := by
  have hsubs := locationSubscribers_filter_self hmem hnodup hloc
  have hne := locationSubscribers_nonempty hmem hloc
  unfold sendLocationNotifications
  dsimp only
  split
  · rename_i h
    simp [hne] at h
  · rw [List.filter_append, List.filter_append, List.map_append, List.map_append,
      batch_attempts_filter_map hsubs, batch_attempts_filter_map hsubs,
      alertLoop_attempts_self hsubs]
    rfl

/-! ### Claim C4 -/

/-- C4: the claim that a permanently-invalid endpoint's remaining sends in
the cycle are aborted fails.  Counterexample: one subscriber whose channel
always answers 410.  After the first (current-conditions) send the
subscription is indeed deleted — the repository ends empty — yet the
second (forecast) payload is still attempted against the snapshotted
subscriber list: two sends reach the endpoint, where an abort would allow
at most one. -/
theorem c4_remaining_sends_not_aborted :
    (sendLocationNotifications 0 chPerm [subL] "L" 0 (hourAt 13) (hourAt 14) [] 2160).1 = [] ∧
    ((sendLocationNotifications 0 chPerm [subL] "L" 0 (hourAt 13) (hourAt 14) [] 2160).2.filter
      (fun a => a.endpoint == "E")).length = 2 := by
  decide

/-- C4 (amended): when the delivery channel reports an endpoint
permanently invalid (410/404), the subscription is deleted from the
repository during the pass — but the remaining sends for that subscription
are *not* aborted: every one of the `2 + |alerts|` payloads is still
attempted against the subscriber list snapshotted at the start of the
pass. -/
theorem c4_amended_deleted_but_still_attempted {serverOff : Tz} {ch : Channel}
    {repo : Repo} {location : String} {tz : Tz} {cur nxt : HourEntry}
    {alerts : List Alert} {now : Instant} {s : Subscription}
    (hmem : s ∈ repo) (hnodup : (endpointsOf repo).Nodup) (hloc : s.location = location)
    (hperm : ∀ p : Payload, ch s.endpoint p = SendResult.permanentlyInvalid) :
    s.endpoint ∉ endpointsOf
      (sendLocationNotifications serverOff ch repo location tz cur nxt alerts now).1 ∧
    ((sendLocationNotifications serverOff ch repo location tz cur nxt alerts now).2.filter
      (fun a => a.endpoint == s.endpoint)).length = 2 + alerts.length := by
  constructor
  · have hne := locationSubscribers_nonempty hmem hloc
    have hsmem : s ∈ repo.filter (fun x => x.location == location) :=
      List.mem_filter.mpr ⟨hmem, by simp [hloc]⟩
    unfold sendLocationNotifications
    dsimp only
    split
    · rename_i h
      simp [hne] at h
    · rw [endpointsOf_map_update]
      apply alertLoop_no_new_endpoints
      apply batch_no_new_endpoints
      exact batch_deletes_perm hsmem (hperm _)
  · have hlist : ((sendLocationNotifications serverOff ch repo location tz cur nxt
          alerts now).2.filter
        (fun a => a.endpoint == s.endpoint)).map (fun a => a.payload)
        = currentNotification location (formatHourOnly tz cur.time) cur ::
          forecastNotification location (formatHourOnly tz nxt.time) nxt ::
          alerts.map (fun al => createAlertNotification serverOff al location) :=
      sendLoc_attempts_self hmem hnodup hloc
    have hlen := congrArg List.length hlist
    rw [List.length_map] at hlen
    rw [hlen]
    simp
    omega

/-- Witness for the amended C4 at a concrete input (one active alert, so
three payloads are attempted even though the endpoint died on the first). -/
theorem c4_amended_witness :
    subL ∈ [subL] ∧ (endpointsOf [subL]).Nodup ∧ subL.location = "L" ∧
    (subL.endpoint ∉ endpointsOf
      (sendLocationNotifications 0 chPerm [subL] "L" 0 (hourAt 13) (hourAt 14) [alertA] 2160).1 ∧
    ((sendLocationNotifications 0 chPerm [subL] "L" 0 (hourAt 13) (hourAt 14) [alertA] 2160).2.filter
      (fun a => a.endpoint == subL.endpoint)).length = 2 + [alertA].length) :=
  ⟨by decide, by decide, rfl,
    c4_amended_deleted_but_still_attempted (by decide) (by decide) rfl (fun _ => rfl)⟩

/-! ### Claim C7 -/

/-- C7: a transient failure on one payload neither stops the remaining
payloads for that subscription (all `2 + |alerts|` are attempted, in
order) nor removes the subscription from the repository. -/
theorem c7_transient_failure_keeps_subscription {serverOff : Tz} {ch : Channel}
    {repo : Repo} {location : String} {tz : Tz} {cur nxt : HourEntry}
    {alerts : List Alert} {now : Instant} {s : Subscription}
    (hmem : s ∈ repo) (hnodup : (endpointsOf repo).Nodup) (hloc : s.location = location)
    (hnoperm : ∀ p : Payload, ch s.endpoint p ≠ SendResult.permanentlyInvalid)
    (htrans : ch s.endpoint
      (currentNotification location (formatHourOnly tz cur.time) cur)
      = SendResult.transient) :
    ((sendLocationNotifications serverOff ch repo location tz cur nxt alerts now).2.filter
      (fun a => a.endpoint == s.endpoint)).map (fun a => a.payload)
      = currentNotification location (formatHourOnly tz cur.time) cur ::
        forecastNotification location (formatHourOnly tz nxt.time) nxt ::
        alerts.map (fun al => createAlertNotification serverOff al location) ∧
    s.endpoint ∈ endpointsOf
      (sendLocationNotifications serverOff ch repo location tz cur nxt alerts now).1 := by
  refine ⟨sendLoc_attempts_self hmem hnodup hloc, ?_⟩
  have hne := locationSubscribers_nonempty hmem hloc
  have hsubs := locationSubscribers_filter_self hmem hnodup hloc
  have hsafe : ∀ sub ∈ repo.filter (fun x => x.location == location),
      sub.endpoint = s.endpoint →
      ∀ p : Payload, ch sub.endpoint p ≠ SendResult.permanentlyInvalid := by
    intro sub hsub hse p
    have : sub ∈ (repo.filter (fun x => x.location == location)).filter
        (fun x => x.endpoint == s.endpoint) :=
      List.mem_filter.mpr ⟨hsub, by simp [hse]⟩
    rw [hsubs] at this
    rcases List.mem_singleton.mp this with rfl
    exact hnoperm p
  unfold sendLocationNotifications
  dsimp only
  split
  · rename_i h
    simp [hne] at h
  · rw [endpointsOf_map_update]
    have h1 : s ∈ repo.filter (fun x => x.location == location) :=
      List.mem_filter.mpr ⟨hmem, by simp [hloc]⟩
    have h2 : s ∈ (sendBatchNotifications ch repo
        (repo.filter (fun x => x.location == location))
        (currentNotification location (formatHourOnly tz cur.time) cur)).1 :=
      batch_keeps_mem hmem (fun sub hsub hse => hsafe sub hsub hse _)
    have h3 : s ∈ (sendBatchNotifications ch
        (sendBatchNotifications ch repo
          (repo.filter (fun x => x.location == location))
          (currentNotification location (formatHourOnly tz cur.time) cur)).1
        (repo.filter (fun x => x.location == location))
        (forecastNotification location (formatHourOnly tz nxt.time) nxt)).1 :=
      batch_keeps_mem h2 (fun sub hsub hse => hsafe sub hsub hse _)
    have h4 : s ∈ (sendAlertNotifications serverOff ch location
        (repo.filter (fun x => x.location == location))
        (sendBatchNotifications ch
          (sendBatchNotifications ch repo
            (repo.filter (fun x => x.location == location))
            (currentNotification location (formatHourOnly tz cur.time) cur)).1
          (repo.filter (fun x => x.location == location))
          (forecastNotification location (formatHourOnly tz nxt.time) nxt)).1
        alerts).1 :=
      alertLoop_keeps_mem hsafe alerts _ h3
    exact List.mem_map_of_mem (fun x => x.endpoint) h4

/-- Witness for C7 at a concrete input: all three payloads fail
transiently; all three are attempted and the subscription survives. -/
theorem c7_witness :
    subL ∈ [subL] ∧ (endpointsOf [subL]).Nodup ∧ subL.location = "L" ∧
    (((sendLocationNotifications 0 chTransient [subL] "L" 0 (hourAt 13) (hourAt 14) [alertA] 2160).2.filter
      (fun a => a.endpoint == subL.endpoint)).map (fun a => a.payload)
      = currentNotification "L" (formatHourOnly 0 (hourAt 13).time) (hourAt 13) ::
        forecastNotification "L" (formatHourOnly 0 (hourAt 14).time) (hourAt 14) ::
        [alertA].map (fun al => createAlertNotification 0 al "L") ∧
    subL.endpoint ∈ endpointsOf
      (sendLocationNotifications 0 chTransient [subL] "L" 0 (hourAt 13) (hourAt 14) [alertA] 2160).1) :=
  ⟨by decide, by decide, rfl,
    c7_transient_failure_keeps_subscription (by decide) (by decide) rfl
      (fun p h => by simp [chTransient] at h) rfl⟩

/-! ### A cycle and a subscription whose location it does not touch -/

theorem update_self_of_ne {location : String} {serverOff tz : Tz} {now : Instant}
    {s : Subscription} (hne : s.location ≠ location) :
    (if s.location == location then
        { s with lastNotified := some now,
                 nextNotificationTime := calculateNextNotificationTime serverOff tz now }
      else s) = s := by
  simp [hne]

theorem sendLoc_keyInv_other {serverOff : Tz} {ch : Channel} {repo : Repo}
    {location : String} {tz : Tz} {cur nxt : HourEntry} {alerts : List Alert}
    {now : Instant} {s : Subscription}
    (hinv : keyInv s repo) (hne : s.location ≠ location) :
    keyInv s (sendLocationNotifications serverOff ch repo location tz cur nxt alerts now).1 ∧
    (sendLocationNotifications serverOff ch repo location tz cur nxt alerts now).2.filter
      (fun a => a.endpoint == s.endpoint) = [] := by
  have he : s.endpoint ∉ (repo.filter (fun x => x.location == location)).map
      (fun x => x.endpoint) := by
    intro h
    rcases List.mem_map.mp h with ⟨x, hx, hxe⟩
    rcases List.mem_filter.mp hx with ⟨hx1, hx2⟩
    have hxs := hinv.2 x hx1 hxe
    subst hxs
    exact hne (beq_iff_eq.mp hx2)
  unfold sendLocationNotifications
  dsimp only
  split
  · exact ⟨hinv, rfl⟩
  · rcases batch_keyInv_other hinv he with ⟨h1, ha1⟩
    rcases batch_keyInv_other h1 he with ⟨h2, ha2⟩
    rcases alertLoop_keyInv_other he alerts _ h2 with ⟨h3, ha3⟩
    constructor
    · constructor
      · refine List.mem_map.mpr ⟨s, h3.1, ?_⟩
        exact update_self_of_ne hne
      · intro x hx hxe
        rcases List.mem_map.mp hx with ⟨y, hy, rfl⟩
        have hye : y.endpoint = s.endpoint := by
          rw [← hxe]
          exact (update_endpoint location serverOff tz now y).symm
        have hys := h3.2 y hy hye
        subst hys
        exact update_self_of_ne hne
    · rw [List.filter_append, List.filter_append, ha1, ha2, ha3]
      rfl

theorem processLocationCycle_keyInv_other {serverOff : Tz} {ch : Channel}
    {provider : String → Option WeatherData} {now : Instant} {repo : Repo}
    {location : String} {subscribers : List Subscription} {s : Subscription}
    (hinv : keyInv s repo) (hne : s.location ≠ location)
    (hsubsE : s.endpoint ∉ subscribers.map (fun x => x.endpoint)) :
    keyInv s (processLocationCycle serverOff ch provider now repo location subscribers).1 ∧
    (processLocationCycle serverOff ch provider now repo location subscribers).2.filter
      (fun a => a.endpoint == s.endpoint) = [] := by
  unfold processLocationCycle
  cases provider location with
  | none => exact batch_keyInv_other hinv hsubsE
  | some wd =>
    dsimp only
    split
    · exact sendLoc_keyInv_other hinv hne
    · exact batch_keyInv_other hinv hsubsE

theorem processLocationCycle_keyInv_self_gap {serverOff : Tz} {ch : Channel}
    {provider : String → Option WeatherData} {now : Instant} {repo : Repo}
    {location : String} {subscribers : List Subscription} {s : Subscription}
    {wd : WeatherData}
    (hinv : keyInv s repo)
    (hsubs : subscribers.filter (fun x => x.endpoint == s.endpoint) = [s])
    (hprov : provider location = some wd)
    (hgap : wd.hours.find? (fun h => h.local_hour == some (hourIn wd.tz_id now)) = none ∨
            wd.hours.find? (fun h => h.local_hour == some ((hourIn wd.tz_id now + 1) % 24))
              = none)
    (hres : ch s.endpoint (cycleFallbackPayload location) ≠ SendResult.permanentlyInvalid) :
    keyInv s (processLocationCycle serverOff ch provider now repo location subscribers).1 ∧
    (processLocationCycle serverOff ch provider now repo location subscribers).2.filter
      (fun a => a.endpoint == s.endpoint)
      = [⟨s.endpoint, cycleFallbackPayload location,
          ch s.endpoint (cycleFallbackPayload location)⟩] := by
  unfold processLocationCycle
  rw [hprov]
  dsimp only
  split
  · rename_i currentData nextData h1 h2
    rcases hgap with hg | hg
    · rw [hg] at h1; cases h1
    · rw [hg] at h2; cases h2
  · exact batch_keyInv_self hinv hsubs hres

/-! ### The set of locations a cycle walks -/

theorem locationsOf_nodup : ∀ subs : List Subscription, (locationsOf subs).Nodup := by
  intro subs
  induction subs with
  | nil => exact List.nodup_nil
  | cons a rest ih =>
    rw [locationsOf, List.nodup_cons]
    constructor
    · intro hmem
      rcases List.mem_filter.mp hmem with ⟨_, hne⟩
      simp at hne
    · exact ih.filter _

theorem location_mem_locationsOf :
    ∀ (subs : List Subscription) (s : Subscription), s ∈ subs →
      s.location ∈ locationsOf subs := by
  intro subs
  induction subs with
  | nil => intro s h; simp at h
  | cons a rest ih =>
    intro s hs
    rw [locationsOf]
    rcases List.mem_cons.mp hs with rfl | hrest
    · exact List.mem_cons_self _ _
    · by_cases heq : s.location = a.location
      · rw [heq]; exact List.mem_cons_self _ _
      · exact List.mem_cons_of_mem _
          (List.mem_filter.mpr ⟨ih s hrest, by simp [heq]⟩)

theorem groupedSubscribers_no_endpoint {allSubs : List Subscription} {s : Subscription}
    (hinv : keyInv s allSubs) {L : String} (hne : s.location ≠ L) :
    s.endpoint ∉ (allSubs.filter (fun x => x.location == L)).map (fun x => x.endpoint) := by
  intro h
  rcases List.mem_map.mp h with ⟨x, hx, hxe⟩
  rcases List.mem_filter.mp hx with ⟨hx1, hx2⟩
  have hxs := hinv.2 x hx1 hxe
  subst hxs
  exact hne (beq_iff_eq.mp hx2)

/-! ### Claim C3 -/

theorem processLocations_no_target {serverOff : Tz} {ch : Channel}
    {provider : String → Option WeatherData} {now : Instant}
    {allSubs : List Subscription} {s : Subscription}
    (hinv0 : keyInv s allSubs) :
    ∀ (ls : List String) (repo : Repo), keyInv s repo → s.location ∉ ls →
      keyInv s (processLocations serverOff ch provider now allSubs repo ls).1 ∧
      (processLocations serverOff ch provider now allSubs repo ls).2.filter
        (fun a => a.endpoint == s.endpoint) = [] := by
  intro ls
  induction ls with
  | nil => intro repo hinv _; exact ⟨hinv, rfl⟩
  | cons L rest ih =>
    intro repo hinv hnot
    have hneL : s.location ≠ L := fun h => hnot (h ▸ List.mem_cons_self _ _)
    have hnrest : s.location ∉ rest := fun h => hnot (List.mem_cons_of_mem _ h)
    unfold processLocations
    rcases processLocationCycle_keyInv_other hinv hneL
      (groupedSubscribers_no_endpoint hinv0 hneL) with ⟨h1, ha1⟩
    rcases ih _ h1 hnrest with ⟨h2, ha2⟩
    exact ⟨h2, by rw [List.filter_append, ha1, ha2]; rfl⟩

theorem processLocations_with_target {serverOff : Tz} {ch : Channel}
    {provider : String → Option WeatherData} {now : Instant}
    {allSubs : List Subscription} {s : Subscription} {wd : WeatherData}
    (hinv0 : keyInv s allSubs)
    (hsubs : (allSubs.filter (fun x => x.location == s.location)).filter
      (fun x => x.endpoint == s.endpoint) = [s])
    (hprov : provider s.location = some wd)
    (hgap : wd.hours.find? (fun h => h.local_hour == some (hourIn wd.tz_id now)) = none ∨
            wd.hours.find? (fun h => h.local_hour == some ((hourIn wd.tz_id now + 1) % 24))
              = none)
    (hres : ch s.endpoint (cycleFallbackPayload s.location)
      ≠ SendResult.permanentlyInvalid) :
    ∀ ls : List String, ls.Nodup → s.location ∈ ls →
      ∀ repo : Repo, keyInv s repo →
      (processLocations serverOff ch provider now allSubs repo ls).1.find?
        (fun x => x.endpoint == s.endpoint) = some s ∧
      (processLocations serverOff ch provider now allSubs repo ls).2.filter
        (fun a => a.endpoint == s.endpoint)
        = [⟨s.endpoint, cycleFallbackPayload s.location,
            ch s.endpoint (cycleFallbackPayload s.location)⟩] := by
  intro ls
  induction ls with
  | nil => intro _ h; simp at h
  | cons L rest ih =>
    intro hnodup hmem repo hinv
    rw [List.nodup_cons] at hnodup
    unfold processLocations
    by_cases hL : L = s.location
    · subst hL
      rcases processLocationCycle_keyInv_self_gap hinv hsubs hprov hgap hres with ⟨h1, ha1⟩
      rcases processLocations_no_target hinv0 rest _ h1 hnodup.1 with ⟨h2, ha2⟩
      refine ⟨find?_eq_some_of_keyInv h2, ?_⟩
      rw [List.filter_append, ha1, ha2, List.append_nil]
    · have hneL : s.location ≠ L := fun h => hL h.symm
      have hmem' : s.location ∈ rest := by
        rcases List.mem_cons.mp hmem with h | h
        · exact absurd h.symm hL
        · exact h
      rcases processLocationCycle_keyInv_other hinv hneL
        (groupedSubscribers_no_endpoint hinv0 hneL) with ⟨h1, ha1⟩
      rcases ih hnodup.2 hmem' _ h1 with ⟨h2, ha2⟩
      exact ⟨h2, by rw [List.filter_append, ha1, ha2]; rfl⟩

/-- C3: when the provider's hourly entries for a subscription's location do
not cover the current or the next local hour (the `h.local_hour` lookup
fails for one of them), the delivery cycle leaves that subscription's
document — including `lastNotified` and `nextNotificationTime` — exactly
as it was, and attempts exactly one send to it: the fallback failure
payload. -/
theorem c3_data_gap_leaves_subscription_untouched (serverOff : Tz) (ch : Channel)
    (provider : String → Option WeatherData) (repo : Repo) (now : Instant)
    (s : Subscription) (wd : WeatherData)
    (hmem : s ∈ repo) (hnodup : (endpointsOf repo).Nodup)
    (hprov : provider s.location = some wd)
    (hgap : wd.hours.find? (fun h => h.local_hour == some (hourIn wd.tz_id now)) = none ∨
            wd.hours.find? (fun h => h.local_hour == some ((hourIn wd.tz_id now + 1) % 24))
              = none)
    (hres : ch s.endpoint (cycleFallbackPayload s.location)
      ≠ SendResult.permanentlyInvalid) :
    (sendTwoHourWeatherUpdates serverOff ch provider repo now).1.find?
      (fun x => x.endpoint == s.endpoint) = some s ∧
    (sendTwoHourWeatherUpdates serverOff ch provider repo now).2.filter
      (fun a => a.endpoint == s.endpoint)
      = [⟨s.endpoint, cycleFallbackPayload s.location,
          ch s.endpoint (cycleFallbackPayload s.location)⟩] := by
  have hinv0 := keyInv_of_nodup hmem hnodup
  unfold sendTwoHourWeatherUpdates
  split
  · rename_i h
    rw [List.isEmpty_iff] at h
    subst h
    simp at hmem
  · exact processLocations_with_target hinv0
      (locationSubscribers_filter_self hmem hnodup rfl) hprov hgap hres
      (locationsOf repo) (locationsOf_nodup repo)
      (location_mem_locationsOf repo s hmem) repo hinv0

/-- Witness for C3 at a concrete input: a provider response with no
hourly entries at all; after the cycle the stored document is unchanged
and exactly one fallback attempt reached the endpoint. -/
theorem c3_witness :
    subL ∈ [subL] ∧ (endpointsOf [subL]).Nodup ∧ provGap subL.location = some wdGap ∧
    ((sendTwoHourWeatherUpdates 0 chDelivered provGap [subL] 2160).1.find?
      (fun x => x.endpoint == subL.endpoint) = some subL ∧
    (sendTwoHourWeatherUpdates 0 chDelivered provGap [subL] 2160).2.filter
      (fun a => a.endpoint == subL.endpoint)
      = [⟨subL.endpoint, cycleFallbackPayload subL.location,
          chDelivered subL.endpoint (cycleFallbackPayload subL.location)⟩]) :=
  ⟨by decide, by decide, rfl,
    c3_data_gap_leaves_subscription_untouched 0 chDelivered provGap [subL] 2160 subL wdGap
      (by decide) (by decide) rfl (Or.inl rfl) (by decide)⟩

/-! ### Endpoint preservation when the channel never reports 410/404 -/

theorem endpointsOf_batch_noPerm {ch : Channel} {repo : Repo}
    {subs : List Subscription} {payload : Payload}
    (hch : ∀ e p, ch e p ≠ SendResult.permanentlyInvalid) :
    endpointsOf (sendBatchNotifications ch repo subs payload).1 = endpointsOf repo := by
  rw [batch_repo_eq]
  have hdead : subs.filter
      (fun sub => ch sub.endpoint payload == SendResult.permanentlyInvalid) = [] := by
    rw [List.filter_eq_nil_iff]
    intro sub _
    simp [hch sub.endpoint payload]
  rw [hdead]
  simp

theorem endpointsOf_alertLoop_noPerm {serverOff : Tz} {ch : Channel} {location : String}
    {subs : List Subscription}
    (hch : ∀ e p, ch e p ≠ SendResult.permanentlyInvalid) :
    ∀ (alerts : List Alert) (repo : Repo),
      endpointsOf (sendAlertNotifications serverOff ch location subs repo alerts).1
        = endpointsOf repo := by
  intro alerts
  induction alerts with
  | nil => intro repo; rfl
  | cons al rest ih =>
    intro repo
    unfold sendAlertNotifications
    rw [ih, endpointsOf_batch_noPerm hch]

theorem endpointsOf_sendLoc_noPerm {serverOff : Tz} {ch : Channel} {repo : Repo}
    {location : String} {tz : Tz} {cur nxt : HourEntry} {alerts : List Alert}
    {now : Instant}
    (hch : ∀ e p, ch e p ≠ SendResult.permanentlyInvalid) :
    endpointsOf (sendLocationNotifications serverOff ch repo location tz cur nxt alerts now).1
      = endpointsOf repo := by
  unfold sendLocationNotifications
  dsimp only
  split
  · rfl
  · rw [endpointsOf_map_update, endpointsOf_alertLoop_noPerm hch,
      endpointsOf_batch_noPerm hch, endpointsOf_batch_noPerm hch]

theorem endpointsOf_sendNotification_noPerm {ch : Channel} {repo : Repo}
    {endpoint : String} {payload : Payload}
    (hch : ∀ e p, ch e p ≠ SendResult.permanentlyInvalid) :
    endpointsOf (sendNotification ch repo endpoint payload).1 = endpointsOf repo := by
  unfold sendNotification
  dsimp only
  rw [if_neg (hch endpoint payload)]

theorem endpointsOf_oneOff_noPerm {serverOff : Tz} {ch : Channel} {repo : Repo}
    {provOut : Option WeatherData} {endpoint location : String} {now : Instant}
    (hch : ∀ e p, ch e p ≠ SendResult.permanentlyInvalid) :
    endpointsOf
        (sendWeatherUpdateForSubscription serverOff ch repo provOut endpoint location now).1
      = endpointsOf repo := by
  unfold sendWeatherUpdateForSubscription
  cases provOut with
  | none => exact endpointsOf_sendNotification_noPerm hch
  | some wd =>
    dsimp only
    split
    · exact endpointsOf_sendLoc_noPerm hch
    · exact endpointsOf_sendNotification_noPerm hch

theorem endpointsOf_upsert_mem {repo : Repo} {doc : Subscription}
    (hmem : doc.endpoint ∈ endpointsOf repo) :
    endpointsOf (upsert repo doc) = endpointsOf repo := by
  unfold upsert
  rw [if_pos]
  · unfold endpointsOf
    rw [List.map_map]
    apply List.map_congr_left
    intro x _
    by_cases h : (x.endpoint == doc.endpoint) = true
    · simp only [Function.comp_apply, h, if_true]
      exact (beq_iff_eq.mp h).symm
    · simp only [Function.comp_apply, h]
      rw [if_neg]
      simp [h]
  · rw [List.any_eq_true]
    rcases List.mem_map.mp hmem with ⟨x, hx, hxe⟩
    exact ⟨x, hx, by simp [hxe]⟩

theorem countP_endpoint_eq (l : Repo) (e : String) :
    l.countP (fun x => x.endpoint == e) = (endpointsOf l).countP (fun x => x == e) := by
  induction l with
  | nil => rfl
  | cons a t ih => simp [endpointsOf, List.countP_cons] at ih ⊢; rw [ih]

/-! ### Claim C8 -/

/-- C8: re-registering an already-registered endpoint (with a healthy
delivery channel, so the triggered one-off delivery deletes nothing)
never creates a second record: the repository's endpoint list, its size,
and the number of records keyed by that endpoint are all unchanged —
the upsert replaces the existing record in place. -/
theorem c8_reregistration_size_unchanged (serverOff : Tz) (ch : Channel)
    (provOut : Option WeatherData) (repo : Repo) (req : SubscribeRequest)
    (now : Instant) (sub : PushSub)
    (hsub : req.subscription = some sub) (hend : sub.endpoint ≠ "")
    (hkeys : sub.keys.isSome = true)
    (hmem : sub.endpoint ∈ endpointsOf repo)
    (hch : ∀ e p, ch e p ≠ SendResult.permanentlyInvalid) :
    endpointsOf (handleSubscribe serverOff ch provOut repo req now).repo
      = endpointsOf repo ∧
    (handleSubscribe serverOff ch provOut repo req now).repo.length = repo.length ∧
    ((handleSubscribe serverOff ch provOut repo req now).repo.filter
      (fun x => x.endpoint == sub.endpoint)).length
      = (repo.filter (fun x => x.endpoint == sub.endpoint)).length := by
  have h1 : (sub.endpoint == "") = false := by simpa using hend
  have h2 : sub.keys.isNone = false := by
    cases h : sub.keys
    · rw [h] at hkeys; simp at hkeys
    · simp [h]
  have hres : endpointsOf (handleSubscribe serverOff ch provOut repo req now).repo
      = endpointsOf repo := by
    unfold handleSubscribe
    rw [hsub]
    simp only [h1, h2, Bool.or_self, Bool.false_eq_true, if_false]
    rw [endpointsOf_oneOff_noPerm hch, endpointsOf_upsert_mem hmem]
  refine ⟨hres, ?_, ?_⟩
  · have := congrArg List.length hres
    simpa [endpointsOf] using this
  · rw [← List.countP_eq_length_filter, ← List.countP_eq_length_filter,
      countP_endpoint_eq, countP_endpoint_eq, hres]

/-- Witness for C8 at a concrete input: re-registering endpoint `E` over a
one-record repository keeps the endpoint list, the size, and the record
count for `E`. -/
theorem c8_witness :
    reqK.subscription = some subK ∧ subK.endpoint ≠ "" ∧ subK.keys.isSome = true ∧
    subK.endpoint ∈ endpointsOf [subOld] ∧
    (endpointsOf (handleSubscribe 0 chTransient none [subOld] reqK 2000).repo
      = endpointsOf [subOld] ∧
    (handleSubscribe 0 chTransient none [subOld] reqK 2000).repo.length = [subOld].length ∧
    ((handleSubscribe 0 chTransient none [subOld] reqK 2000).repo.filter
      (fun x => x.endpoint == subK.endpoint)).length
      = ([subOld].filter (fun x => x.endpoint == subK.endpoint)).length) :=
  ⟨rfl, by decide, by decide, by decide,
    c8_reregistration_size_unchanged 0 chTransient none [subOld] reqK 2000 subK rfl
      (by decide) (by decide) (by decide)
      (fun e p h => by simp [chTransient] at h)⟩

/-! ### Delivery never invents documents or touches `createdAt` -/

theorem update_createdAt (location : String) (serverOff tz : Tz) (now : Instant)
    (x : Subscription) :
    ((fun s => if s.location == location then
        { s with lastNotified := some now,
                 nextNotificationTime := calculateNextNotificationTime serverOff tz now }
      else s) x).createdAt = x.createdAt := by
  by_cases h : (x.location == location) = true <;> simp [h]

theorem sendNotification_subset {ch : Channel} {repo : Repo} {endpoint : String}
    {payload : Payload} :
    ∀ x ∈ (sendNotification ch repo endpoint payload).1, x ∈ repo := by
  unfold sendNotification
  dsimp only
  split
  · intro x hx; exact (List.mem_filter.mp hx).1
  · intro x hx; exact hx

theorem sendLoc_frame {serverOff : Tz} {ch : Channel} {repo : Repo}
    {location : String} {tz : Tz} {cur nxt : HourEntry} {alerts : List Alert}
    {now : Instant} :
    ∀ x ∈ (sendLocationNotifications serverOff ch repo location tz cur nxt alerts now).1,
      ∃ y ∈ repo, x.endpoint = y.endpoint ∧ x.createdAt = y.createdAt := by
  unfold sendLocationNotifications
  dsimp only
  split
  · intro x hx; exact ⟨x, hx, rfl, rfl⟩
  · intro x hx
    rcases List.mem_map.mp hx with ⟨y, hy, rfl⟩
    have hy2 : y ∈ repo :=
      batch_repo_subset y (batch_repo_subset y (alertLoop_repo_subset alerts _ y hy))
    exact ⟨y, hy2, update_endpoint location serverOff tz now y,
      update_createdAt location serverOff tz now y⟩

theorem oneOff_frame {serverOff : Tz} {ch : Channel} {repo : Repo}
    {provOut : Option WeatherData} {endpoint location : String} {now : Instant} :
    ∀ x ∈ (sendWeatherUpdateForSubscription serverOff ch repo provOut endpoint location now).1,
      ∃ y ∈ repo, x.endpoint = y.endpoint ∧ x.createdAt = y.createdAt := by
  unfold sendWeatherUpdateForSubscription
  cases provOut with
  | none => intro x hx; exact ⟨x, sendNotification_subset x hx, rfl, rfl⟩
  | some wd =>
    dsimp only
    split
    · exact sendLoc_frame
    · intro x hx; exact ⟨x, sendNotification_subset x hx, rfl, rfl⟩

theorem upsert_createdAt {repo : Repo} {doc : Subscription} :
    ∀ x ∈ upsert repo doc, x.endpoint = doc.endpoint → x.createdAt = doc.createdAt := by
  unfold upsert
  split
  · intro x hx hxe
    rcases List.mem_map.mp hx with ⟨y, hy, rfl⟩
    by_cases h : (y.endpoint == doc.endpoint) = true
    · simp only [h, if_true]
    · rw [if_neg (by simp [h])] at hxe ⊢
      exact absurd (by simp [hxe]) h
  · rename_i hany
    intro x hx hxe
    rcases List.mem_append.mp hx with h | h
    · exfalso
      apply hany
      rw [List.any_eq_true]
      exact ⟨x, h, by simp [hxe]⟩
    · rcases List.mem_singleton.mp h with rfl
      rfl

/-! ### Claim C9 -/

/-- C9: the claim that `createdAt` is the instant of *first* registration
fails.  Counterexample: endpoint `E` registered at minute 100; a second
registration of the same endpoint at minute 2000 stores `createdAt =
2000` (the `$set` upsert overwrites every field, `createdAt` included),
not the original 100. -/
theorem c9_createdAt_overwritten :
    (handleSubscribe 0 chDelivered none [subOld] reqK 2000).repo.map
      (fun s => s.createdAt) = [2000] ∧
    subOld.createdAt = 100 ∧
    (handleSubscribe 0 chDelivered none [subOld] reqK 2000).repo.map
      (fun s => s.createdAt) ≠ [subOld.createdAt] := by
  decide

/-- C9 (amended): `createdAt` is the instant of the *most recent*
registration: after any valid registration of an endpoint, every stored
record keyed by that endpoint carries `createdAt = now` of that request —
re-registering overwrites the original creation instant. -/
theorem c9_amended_createdAt_latest_registration (serverOff : Tz) (ch : Channel)
    (provOut : Option WeatherData) (repo : Repo) (req : SubscribeRequest)
    (now : Instant) (sub : PushSub)
    (hsub : req.subscription = some sub) (hend : sub.endpoint ≠ "")
    (hkeys : sub.keys.isSome = true) :
    ((handleSubscribe serverOff ch provOut repo req now).repo.filter
      (fun x => x.endpoint == sub.endpoint)).all
      (fun x => x.createdAt == now) = true := by
  have h1 : (sub.endpoint == "") = false := by simpa using hend
  have h2 : sub.keys.isNone = false := by
    cases h : sub.keys
    · rw [h] at hkeys; simp at hkeys
    · simp [h]
  unfold handleSubscribe
  rw [hsub]
  simp only [h1, h2, Bool.or_self, Bool.false_eq_true, if_false]
  rw [List.all_eq_true]
  intro x hx
  rcases List.mem_filter.mp hx with ⟨hx1, hx2⟩
  rcases oneOff_frame x hx1 with ⟨y, hy, hye, hyc⟩
  have hyd : y.createdAt = now := upsert_createdAt y hy (hye ▸ beq_iff_eq.mp hx2)
  simp [hyc, hyd]

/-- Witness for the amended C9 at a concrete input: after re-registering
endpoint `E` at minute 2000 over its minute-100 record, the stored record
carries `createdAt = 2000`. -/
theorem c9_amended_witness :
    reqK.subscription = some subK ∧ subK.endpoint ≠ "" ∧ subK.keys.isSome = true ∧
    ((handleSubscribe 0 chDelivered none [subOld] reqK 2000).repo.filter
      (fun x => x.endpoint == subK.endpoint)).all
      (fun x => x.createdAt == 2000) = true :=
  ⟨rfl, by decide, by decide,
    c9_amended_createdAt_latest_registration 0 chDelivered none [subOld] reqK 2000 subK rfl
      (by decide) (by decide)⟩

end Weatherly
